import Mathlib

/-!
# Verification of libMesh GnuPlotIO (src/src/mesh/gnuplot_io.C)

A shallow embedding of the GnuPlotIO exporter.  Design of the embedding:

* libMesh `Real` / `Number` values are modelled as exact integers
  (the spec treats the numeric type as opaque); `std::ostream` output of
  such a value is modelled by decimal formatting `fmtInt`, which agrees
  with C++ `operator<<` on integer-valued data.
* `libmesh_assert` failures are modelled as explicit errors
  (`GErr.dimAssert`, `GErr.missingData`), and an out-of-range
  `std::vector` access (undefined behavior in the C++) is modelled as
  the explicit error `GErr.indexOOB`.
* Only the coordinating process (`procId = 0`) produces output; the
  result `Except.ok none` models "returned without touching any file".
* `std::map<Real, std::vector<Number>>` is modelled by an association
  list kept sorted by key, with `mapInsert` as `operator[]` assignment.
* `std::ofstream` output is modelled by the strings accumulated in
  `GOut.script` and `GOut.dataFile`; on an error the partial text that
  the C++ had already flushed before dying is discarded by the model.
-/

namespace GnuplotIOModel

/-- Decimal digit character, `d` is taken modulo nothing: callers pass `n % 10`. -/
def digitChar (d : Nat) : Char :=
  if d = 0 then '0' else if d = 1 then '1' else if d = 2 then '2'
  else if d = 3 then '3' else if d = 4 then '4' else if d = 5 then '5'
  else if d = 6 then '6' else if d = 7 then '7' else if d = 8 then '8' else '9'

/-- Fuel-based decimal rendering of a natural number, most significant digit first. -/
def fmtNatCore : Nat → Nat → List Char → List Char
  | 0, _, acc => acc
  | fuel+1, n, acc =>
    let d := digitChar (n % 10)
    if n / 10 = 0 then d :: acc else fmtNatCore fuel (n / 10) (d :: acc)

/-- Decimal rendering of a natural number (models `ostream <<` on integers). -/
def fmtNat (n : Nat) : String := String.mk (fmtNatCore (n+1) n [])

/-- Decimal rendering of an integer (models `ostream <<` on integer-valued `Real`). -/
def fmtInt : Int → String
  | Int.ofNat m => fmtNat m
  | Int.negSucc m => "-" ++ fmtNat (m+1)

/-- Split a character list at a separator character.  Observation function
used to state the row and column structure of the artifacts. -/
def splitOnChar (sep : Char) : List Char → List (List Char)
  | [] => [[]]
  | c :: rest =>
    if c = sep then [] :: splitOnChar sep rest
    else
      match splitOnChar sep rest with
      | [] => [[c]]
      | f :: fs => (c :: f) :: fs

/-- The (non-empty) tab-delimited fields of a string: how gnuplot counts columns. -/
def tabFields (s : String) : List String :=
  ((splitOnChar '\t' s.data).filter (fun f => f ≠ [])).map (fun f => String.mk f)

/-- A mesh element as consumed by gnuplot_io.C: its local-to-global node map
(`elem->node(i)`) and whether `neighbor(0)` / `neighbor(1)` are non-NULL. -/
structure Elem where
  nodes : List Nat
  hasNeighbor0 : Bool
  hasNeighbor1 : Bool
deriving DecidableEq

/-- The mesh capabilities consumed by gnuplot_io.C: `mesh_dimension()`,
the active-element range, `point(id)(0)` and `processor_id()`. -/
structure MeshBase where
  meshDim : Nat
  activeElems : List Elem
  point : Nat → Int
  procId : Nat

/-- The GnuPlotIO object state: mesh reference plus the members set by the
constructor (`_title`, `_grid`, `_png_output`) and the public `axes_limits`
string declared in gnuplot_io.h. -/
structure GnuPlotState where
  mesh : MeshBase
  title : String
  grid : Bool
  png_output : Bool
  axes_limits : String

/-- Error outcomes of the embedded exporter: the two `libmesh_assert`
preconditions of write_solution, and out-of-range vector access (undefined
behavior in the C++, made explicit here). -/
inductive GErr where
  | dimAssert
  | missingData
  | indexOOB
deriving DecidableEq

/-- The two artifacts written by a successful export. -/
structure GOut where
  script : String
  dataFile : String
deriving DecidableEq

/-- Accumulator of pass 1 (lines 107-142): domain bounds, the x2tics string
and the element counter. -/
structure Pass1Acc where
  x_min : Int
  x_max : Int
  xtics : String
  count : Nat
deriving DecidableEq

/-- One iteration of the pass-1 loop over active elements (lines 121-142). -/
def pass1Step (m : MeshBase) (nae : Nat) (acc : Pass1Acc) (el : Elem) : Pass1Acc :=
  let x0 := m.point (el.nodes.getD 0 0)
  let x1 := m.point (el.nodes.getD 1 0)
  let a1 :=
    if el.hasNeighbor0 then acc
    else { acc with x_min := x0, xtics := acc.xtics ++ "\x22\x22 " ++ fmtInt x0 ++ ", \x5c\n" }
  let a2 := if el.hasNeighbor1 then a1 else { a1 with x_max := x1 }
  let a3 := { a2 with xtics := a2.xtics ++ "\x22\x22 " ++ fmtInt x1 }
  let a4 := if a3.count + 1 ≠ nae then { a3 with xtics := a3.xtics ++ ", \x5c\n" } else a3
  { a4 with count := a4.count + 1 }

/-- Pass 1 over all active elements, starting from `x_min=0, x_max=0` (line 110). -/
def pass1 (m : MeshBase) : Pass1Acc :=
  m.activeElems.foldl (pass1Step m m.activeElems.length) ⟨0, 0, "", 0⟩

/-- One plot clause (the byte sequence emitted at lines 157-158 and 163-164):
quote the data-file name, reference column `col`, label with `name`. -/
def plotTrace (dfn : String) (col : Nat) (name : String) : String :=
  "\x22" ++ dfn ++ "\x22 using 1:" ++ fmtNat col ++ " title \x22" ++ name
    ++ "\x22 with lines"

/-- The continuation clauses of the plot command (lines 159-166), one per
variable after the first, referencing columns 3, 4, ... . -/
def plotContinuations (dfn : String) : Nat → List String → String
  | _, [] => ""
  | col, name :: rest =>
    ", \x5c\n" ++ plotTrace dfn col name ++ plotContinuations dfn (col+1) rest

/-- `node_map[key] = values` on the sorted association list modelling
`std::map<Real, std::vector<Number>>` (line 206). -/
def mapInsert (k : Int) (v : List Int) : List (Int × List Int) → List (Int × List Int)
  | [] => [(k, v)]
  | (k1, v1) :: rest =>
    if k < k1 then (k, v) :: (k1, v1) :: rest
    else if k = k1 then (k, v) :: rest
    else (k1, v1) :: mapInsert k v rest

/-- The inner value-gathering loop (lines 201-204): read
`soln[base + c]` for each `c` in the given list, failing explicitly where the
C++ would read out of bounds. -/
def readValuesFrom (soln : List Int) (base : Nat) : List Nat → Except GErr (List Int)
  | [] => Except.ok []
  | c :: cs =>
    match soln[base + c]? with
    | none => Except.error GErr.indexOOB
    | some v =>
      match readValuesFrom soln base cs with
      | Except.error e => Except.error e
      | Except.ok vs => Except.ok (v :: vs)

/-- The per-node value vector: `soln[global_id*n_vars + c]` for `c < n_vars`. -/
def readValues (soln : List Int) (gid nvars : Nat) : Except GErr (List Int) :=
  readValuesFrom soln (gid * nvars) (List.range nvars)

/-- The per-element node loop of pass 2 (lines 194-207): insert each local
node's coordinate/values pair into the map. -/
def insertNodes (m : MeshBase) (soln : List Int) (nvars : Nat) :
    List (Int × List Int) → List Nat → Except GErr (List (Int × List Int))
  | mp, [] => Except.ok mp
  | mp, gid :: rest =>
    match readValues soln gid nvars with
    | Except.error e => Except.error e
    | Except.ok values => insertNodes m soln nvars (mapInsert (m.point gid) values mp) rest

/-- The element loop of pass 2 (lines 190-208). -/
def nodeMapElems (m : MeshBase) (soln : List Int) (nvars : Nat) :
    List (Int × List Int) → List Elem → Except GErr (List (Int × List Int))
  | mp, [] => Except.ok mp
  | mp, el :: rest =>
    match insertNodes m soln nvars mp el.nodes with
    | Except.error e => Except.error e
    | Except.ok mp2 => nodeMapElems m soln nvars mp2 rest

/-- The complete `node_map` built by pass 2 starting from the empty map. -/
def nodeMapOf (m : MeshBase) (soln : List Int) (nvars : Nat) :
    Except GErr (List (Int × List Int)) :=
  nodeMapElems m soln nvars [] m.activeElems

/-- One data-file row without its newline (lines 219-224): the coordinate and
then each value, each followed by a tab. -/
def rowBody (kv : Int × List Int) : String :=
  fmtInt kv.1 ++ "\t" ++ String.join (kv.2.map (fun v => fmtInt v ++ "\t"))

/-- The whole data file (lines 211-227): one row per map entry, in map order. -/
def dataFileOf (nm : List (Int × List Int)) : String :=
  String.join (nm.map (fun kv => rowBody kv ++ "\n"))

/-- The fixed script header (lines 98-105). -/
def scriptHeader (fname title : String) : String :=
  "# This file was generated by gnuplot_io.C\n"
    ++ "# Stores 1D solution data in GNUplot format\n"
    ++ "# Execute this by loading gnuplot and typing \x22call \x27" ++ fname ++ "\x27\x22\n"
    ++ "reset\n"
    ++ "set title \x22" ++ title ++ "\x22\n"
    ++ "set xlabel \x22x\x22\n"
    ++ "set xtics nomirror\n"

/-- The x-range directive (line 144). -/
def xrangeLine (p1 : Pass1Acc) : String :=
  "set xrange [" ++ fmtInt p1.x_min ++ ":" ++ fmtInt p1.x_max ++ "]\n"

/-- The grid directives written when `_grid` is set (line 147). -/
def gridLines (p1 : Pass1Acc) : String :=
  "set x2tics (" ++ p1.xtics ++ ")\nset grid noxtics noytics x2tics\n"

/-- The PNG terminal directives written when `_png_output` is set (lines 149-153). -/
def pngLines (fname : String) : String :=
  "set terminal png\nset output \x22" ++ fname ++ ".png\x22\n"

/-- The plot command (lines 155-166): first variable at column 2, then one
continuation clause per further variable. -/
def plotCmdOf (ax dfn n0 : String) (rest : List String) : String :=
  "plot " ++ ax ++ " " ++ plotTrace dfn 2 n0 ++ plotContinuations dfn 3 rest

/-- The full script artifact for variables `n0 :: rest`. -/
def scriptOf (st : GnuPlotState) (fname n0 : String) (rest : List String) : String :=
  scriptHeader fname st.title
    ++ xrangeLine (pass1 st.mesh)
    ++ (if st.grid then gridLines (pass1 st.mesh) else "")
    ++ (if st.png_output then pngLines fname else "")
    ++ plotCmdOf st.axes_limits (fname ++ "_data") n0 rest

/-- GnuPlotIO::write_solution (lines 62-231).  Returns `ok none` on a
non-coordinating process, an error where the C++ asserts or reads out of
bounds, and the two artifacts otherwise. -/
def write_solution (st : GnuPlotState) (fname : String)
    (soln : Option (List Int)) (names : Option (List String)) :
    Except GErr (Option GOut) :=
  let m := st.mesh
  if m.procId = 0 then
    if m.meshDim = 1 then
      match soln, names with
      | some s, some (n0 :: rest) =>
        match nodeMapOf m s (n0 :: rest).length with
        | Except.error e => Except.error e
        | Except.ok nm =>
          Except.ok (some { script := scriptOf st fname n0 rest
                          , dataFile := dataFileOf nm })
      | some _, some [] =>
        -- `names` is a valid handle, so the assert at line 84 passes; the
        -- plot command then evaluates `(*names)[0]` on an empty vector.
        Except.error GErr.indexOOB
      | _, _ => Except.error GErr.missingData
    else Except.error GErr.dimAssert
  else Except.ok none

/-- GnuPlotIO::write (lines 43-46): delegate with no solution and no names. -/
def write (st : GnuPlotState) (fname : String) : Except GErr (Option GOut) :=
  write_solution st fname none none

/-- GnuPlotIO::write_nodal_data (lines 48-57). -/
def write_nodal_data (st : GnuPlotState) (fname : String)
    (soln : List Int) (names : List String) : Except GErr (Option GOut) :=
  write_solution st fname (some soln) (some names)

/-- The worked-example mesh of the spec: three unit elements with nodes at
coordinates 0, 1, 2, 3, single coordinating process. -/
def exMesh : MeshBase where
  meshDim := 1
  activeElems :=
    [ { nodes := [0, 1], hasNeighbor0 := false, hasNeighbor1 := true }
    , { nodes := [1, 2], hasNeighbor0 := true, hasNeighbor1 := true }
    , { nodes := [2, 3], hasNeighbor0 := true, hasNeighbor1 := false } ]
  point := fun g => (g : Int)
  procId := 0

/-- An exporter over the worked-example mesh, default options. -/
def exSt : GnuPlotState where
  mesh := exMesh
  title := "u"
  grid := false
  png_output := false
  axes_limits := ""

/-- The worked-example solution values at nodes 0..3. -/
def exSoln : List Int := [0, 1, 4, 9]

/-- Result of the worked-example export. -/
def exResult : Except GErr (Option GOut) := write_nodal_data exSt "ex" exSoln ["u"]

/-- The artifacts of the worked-example export. -/
def exOut : GOut := ((exResult.toOption).getD none).getD { script := "", dataFile := "" }

/-- The rows of a data file: the newline-terminated lines, without newlines. -/
def dataRows (out : GOut) : List String :=
  ((splitOnChar '\n' out.dataFile.data).dropLast).map (fun f => String.mk f)

/-- The lines of a script. -/
def scriptLines (out : GOut) : List String :=
  (splitOnChar '\n' out.script.data).map (fun f => String.mk f)

/-- Spec-side: the expected plot clauses for the variables, the one at
column `col` first (the claim's "i-th variable references column i+2"
corresponds to starting at column 2). -/
def tracesFrom (dfn : String) : Nat → List String → List String
  | _, [] => []
  | col, n :: rest => plotTrace dfn col n :: tracesFrom dfn (col+1) rest

/-- Spec-side: plot clauses joined by the gnuplot continuation separator. -/
def traceJoin : List String → String
  | [] => ""
  | [t] => t
  | t :: t2 :: ts => t ++ ", \x5c\n" ++ traceJoin (t2 :: ts)

/-! ## Claim theorems -/

/-- C1, counterexample: on the worked example mesh with variable "u" and
values [0,1,4,9], the data rows are NOT the claimed strings (the code
appends a tab after every value, so each row carries a trailing tab). -/
theorem c1_example_rows_counterexample :
    write_nodal_data exSt "ex" exSoln ["u"] = Except.ok (some exOut) ∧
    dataRows exOut ≠ ["0\t0", "1\t1", "2\t4", "3\t9"] := by
  exact ⟨rfl, by decide⟩

/-- C1, amended: the worked example's data rows are "0\t0\t", "1\t1\t",
"2\t4\t", "3\t9\t" (coordinate and value each followed by a tab), in that
order, and the script contains the exact line `set xrange [0:3]`. -/
theorem c1_example_amended :
    write_nodal_data exSt "ex" exSoln ["u"] = Except.ok (some exOut) ∧
    dataRows exOut = ["0\t0\t", "1\t1\t", "2\t4\t", "3\t9\t"] ∧
    "set xrange [0:3]" ∈ scriptLines exOut := by
  exact ⟨rfl, by decide, by decide⟩

/-- C2, code evaluation: `write` delegates to `write_solution` with no
solution and no names (line 45), and the assertion at line 84 then fails,
so `write` never succeeds on the coordinating process — it does not
produce a script-only export as the spec describes. -/
theorem c2_write_hits_missing_data_assert :
    write exSt "ex" = Except.error GErr.missingData := rfl

/-- C3, code evaluation: with a non-null but EMPTY names vector the assert
at line 84 passes (it only checks the handles for NULL), and the export
instead dies at `(*names)[0]` (line 157, out-of-bounds, undefined behavior
in the C++) — not with the MissingData precondition the claim requires. -/
theorem c3_empty_names_not_missing_data :
    write_nodal_data exSt "ex" exSoln [] = Except.error GErr.indexOOB ∧
    write_nodal_data exSt "ex" exSoln [] ≠ Except.error GErr.missingData := by
  refine ⟨rfl, fun h => ?_⟩
  have h2 : (Except.error GErr.indexOOB : Except GErr (Option GOut)) =
      Except.error GErr.missingData :=
    (show write_nodal_data exSt "ex" exSoln [] =
        Except.error GErr.indexOOB from rfl).symm.trans h
  injection h2 with h3
  exact absurd h3 (by decide)

/-- C9: the export is a pure function of (mesh, solution, names, title,
options, path); two invocations on the same input yield byte-identical
script and data artifacts. -/
theorem c9_deterministic (st : GnuPlotState) (fname : String)
    (s : List Int) (ns : List String) (o1 o2 : GOut)
    (h1 : write_nodal_data st fname s ns = Except.ok (some o1))
    (h2 : write_nodal_data st fname s ns = Except.ok (some o2)) :
    o1.script = o2.script ∧ o1.dataFile = o2.dataFile := by
  have h := h1.symm.trans h2
  injection h with h3
  injection h3 with h4
  subst h4
  exact ⟨rfl, rfl⟩

/-- C9 witness at the worked example. -/
theorem c9_deterministic_witness :
    exOut.script = exOut.script ∧ exOut.dataFile = exOut.dataFile :=
  c9_deterministic exSt "ex" exSoln ["u"] exOut exOut rfl rfl

/-- C10: on a non-coordinating process (processor id `pid + 1 ≠ 0`) the
export returns successfully with no artifacts at all, for every mesh,
path, solution and names — the body after the active-element count query
is skipped entirely. -/
theorem c10_noncoordinator_writes_nothing (d : Nat) (els : List Elem)
    (pt : Nat → Int) (pid : Nat) (title : String) (g p : Bool)
    (ax fname : String) (soln : Option (List Int))
    (names : Option (List String)) :
    write_solution ⟨⟨d, els, pt, pid + 1⟩, title, g, p, ax⟩ fname soln names =
      Except.ok none := by
  simp [write_solution]


/-- Inversion of a successful nodal-data export. -/
theorem write_solution_ok_inv (st : GnuPlotState) (fname : String)
    (s : List Int) (ns : List String) (out : GOut)
    (h : write_solution st fname (some s) (some ns) = Except.ok (some out)) :
    ∃ n0 rest nm, ns = n0 :: rest ∧
      nodeMapOf st.mesh s ns.length = Except.ok nm ∧
      out = { script := scriptOf st fname n0 rest, dataFile := dataFileOf nm } := by
  rcases ns with _ | ⟨n0, rest⟩
  · simp only [write_solution] at h
    split at h
    · split at h
      · exact absurd h (by simp)
      · exact absurd h (by simp)
    · exact absurd h (by simp)
  · simp only [write_solution] at h
    split at h
    · split at h
      · rcases hnm : nodeMapOf st.mesh s (n0 :: rest).length with e | nm
        · rw [hnm] at h
          exact absurd h (by simp)
        · rw [hnm] at h
          simp only [Except.ok.injEq, Option.some.injEq] at h
          exact ⟨n0, rest, nm, rfl, rfl, h.symm⟩
      · exact absurd h (by simp)
    · exact absurd h (by simp)

/-- C7: on the coordinating process, a wrong mesh dimension or an absent
solution/names handle makes the export fail with the corresponding
precondition error (`libmesh_assert`, lines 81 and 84) before any file is
opened: the result carries no artifact at all. -/
theorem c7_fail_before_io (st : GnuPlotState) (fname : String)
    (soln : Option (List Int)) (names : Option (List String))
    (hproc : st.mesh.procId = 0)
    (hbad : st.mesh.meshDim ≠ 1 ∨ soln = none ∨ names = none) :
    write_solution st fname soln names = Except.error GErr.dimAssert ∨
    write_solution st fname soln names = Except.error GErr.missingData := by
  simp only [write_solution]
  rw [hproc, if_pos rfl]
  by_cases hdim : st.mesh.meshDim = 1
  · rw [if_pos hdim]
    right
    have hn : soln = none ∨ names = none := by
      rcases hbad with h | h | h
      · exact absurd hdim h
      · exact Or.inl h
      · exact Or.inr h
    rcases soln with _ | s <;> rcases names with _ | ns
    · rfl
    · rfl
    · rfl
    · rcases hn with h | h <;> simp at h
  · rw [if_neg hdim]
    exact Or.inl rfl

/-- C7 witness: a 2-dimensional mesh on processor 0 is rejected. -/
theorem c7_fail_before_io_witness :
    write_solution ⟨⟨2, [], fun _ => 0, 0⟩, "t", false, false, ""⟩ "f" none none =
        Except.error GErr.dimAssert ∨
    write_solution ⟨⟨2, [], fun _ => 0, 0⟩, "t", false, false, ""⟩ "f" none none =
        Except.error GErr.missingData :=
  c7_fail_before_io ⟨⟨2, [], fun _ => 0, 0⟩, "t", false, false, ""⟩ "f" none none
    rfl (Or.inl (by decide))

/-- C8: a mesh with zero active elements leaves the pass-1 bounds at their
initial values (line 110), so the script's x-range directive is the
degenerate `set xrange [0:0]`. -/
theorem c8_empty_mesh_degenerate_xrange (pt : Nat → Int) (title : String)
    (g p : Bool) (ax fname : String) (s : List Int) (n0 : String)
    (ns : List String) :
    ∃ out : GOut,
      write_solution ⟨⟨1, [], pt, 0⟩, title, g, p, ax⟩ fname (some s)
          (some (n0 :: ns)) = Except.ok (some out) ∧
      (pass1 ⟨1, [], pt, 0⟩).x_min = 0 ∧
      (pass1 ⟨1, [], pt, 0⟩).x_max = 0 ∧
      ∃ a b : String, out.script = a ++ ("set xrange [0:0]\n" ++ b) := by
  refine ⟨_, rfl, rfl, rfl, scriptHeader fname title, ?_⟩
  refine ⟨(if g then gridLines (pass1 ⟨1, [], pt, 0⟩) else "")
      ++ ((if p then pngLines fname else "")
      ++ plotCmdOf ax (fname ++ "_data") n0 ns), ?_⟩
  show scriptOf ⟨⟨1, [], pt, 0⟩, title, g, p, ax⟩ fname n0 ns = _
  simp only [scriptOf]
  rw [show xrangeLine (pass1 ⟨1, [], pt, 0⟩) = "set xrange [0:0]\n" from rfl]
  simp only [String.append_assoc]


theorem tracesFrom_length (dfn : String) (ns : List String) :
    ∀ col, (tracesFrom dfn col ns).length = ns.length := by
  induction ns with
  | nil => intro col; rfl
  | cons n rest ih => intro col; simp [tracesFrom, ih (col+1)]

theorem tracesFrom_getD (dfn : String) (ns : List String) :
    ∀ col i, i < ns.length →
      (tracesFrom dfn col ns).getD i "" = plotTrace dfn (col + i) (ns.getD i "") := by
  induction ns with
  | nil => intro col i hi; exact absurd hi (by simp)
  | cons n rest ih =>
    intro col i hi
    cases i with
    | zero => simp [tracesFrom]
    | succ j =>
      have hj : j < rest.length := by simpa using hi
      simp only [tracesFrom, List.getD_cons_succ]
      rw [ih (col+1) j hj]
      congr 1
      omega

theorem plot_clauses_join (dfn : String) (rest : List String) :
    ∀ col n, plotTrace dfn col n ++ plotContinuations dfn (col+1) rest =
      traceJoin (tracesFrom dfn col (n :: rest)) := by
  induction rest with
  | nil =>
    intro col n
    simp [plotContinuations, tracesFrom, traceJoin, String.append_empty]
  | cons n1 rest ih =>
    intro col n
    simp only [plotContinuations, tracesFrom, traceJoin]
    have ih2 := ih (col+1) n1
    simp only [tracesFrom] at ih2
    rw [← ih2]
    simp [String.append_assoc]

/-- C6: the script of a successful export ends in a plot command whose
clause list has exactly one clause per variable, in variable order, the
0-based i-th clause referencing data-file column i+2 and labelled with the
i-th name. -/
theorem c6_plot_traces (st : GnuPlotState) (fname : String) (s : List Int)
    (ns : List String) (out : GOut)
    (h : write_nodal_data st fname s ns = Except.ok (some out)) :
    ∃ pre, out.script = pre ++
        ("plot " ++ st.axes_limits ++ " "
          ++ traceJoin (tracesFrom (fname ++ "_data") 2 ns)) ∧
      (tracesFrom (fname ++ "_data") 2 ns).length = ns.length ∧
      ∀ i, i < ns.length →
        (tracesFrom (fname ++ "_data") 2 ns).getD i "" =
          "\x22" ++ (fname ++ "_data") ++ "\x22 using 1:" ++ fmtNat (i + 2)
            ++ " title \x22" ++ ns.getD i "" ++ "\x22 with lines" := by
  obtain ⟨n0, rest, nm, hns, hnm, hout⟩ := write_solution_ok_inv st fname s ns out h
  subst hns
  subst hout
  refine ⟨scriptHeader fname st.title ++ xrangeLine (pass1 st.mesh)
      ++ (if st.grid then gridLines (pass1 st.mesh) else "")
      ++ (if st.png_output then pngLines fname else ""), ?_, tracesFrom_length _ _ _, ?_⟩
  · show scriptOf st fname n0 rest = _
    simp only [scriptOf, plotCmdOf]
    rw [← plot_clauses_join]
    simp [String.append_assoc]
  · intro i hi
    rw [tracesFrom_getD _ _ _ i hi]
    simp only [plotTrace]
    rw [Nat.add_comm 2 i]

/-- C6 witness at the worked example. -/
theorem c6_plot_traces_witness :
    ∃ pre, exOut.script = pre ++
        ("plot " ++ exSt.axes_limits ++ " "
          ++ traceJoin (tracesFrom ("ex" ++ "_data") 2 ["u"])) ∧
      (tracesFrom ("ex" ++ "_data") 2 ["u"]).length = (["u"] : List String).length ∧
      ∀ i, i < (["u"] : List String).length →
        (tracesFrom ("ex" ++ "_data") 2 ["u"]).getD i "" =
          "\x22" ++ ("ex" ++ "_data") ++ "\x22 using 1:" ++ fmtNat (i + 2)
            ++ " title \x22" ++ (["u"] : List String).getD i "" ++ "\x22 with lines" :=
  c6_plot_traces exSt "ex" exSoln ["u"] exOut rfl


/-- The keys (coordinates) of the node map, in storage order. -/
def keysOf (nm : List (Int × List Int)) : List Int := nm.map Prod.fst

/-- The multiset of node coordinates visited by pass 2: every local node of
every active element, mapped through the mesh coordinate lookup. -/
def activeCoords (m : MeshBase) : List Int :=
  (m.activeElems.map (fun el => el.nodes.map (fun g => m.point g))).flatten

theorem keysOf_cons (kv : Int × List Int) (l : List (Int × List Int)) :
    keysOf (kv :: l) = kv.1 :: keysOf l := rfl

theorem mem_keysOf_mapInsert (k : Int) (v : List Int) (mp : List (Int × List Int))
    (x : Int) : x ∈ keysOf (mapInsert k v mp) ↔ x = k ∨ x ∈ keysOf mp := by
  induction mp with
  | nil => simp [mapInsert, keysOf]
  | cons kv rest ih =>
    obtain ⟨k1, v1⟩ := kv
    simp only [mapInsert]
    split
    · simp only [keysOf, List.map_cons, List.mem_cons]
    · split
      · rename_i hlt heq
        subst heq
        simp only [keysOf, List.map_cons, List.mem_cons]
        tauto
      · simp only [keysOf, List.map_cons, List.mem_cons] at ih ⊢
        rw [ih]
        tauto

theorem pairwise_keysOf_mapInsert (k : Int) (v : List Int)
    (mp : List (Int × List Int)) (h : List.Pairwise (· < ·) (keysOf mp)) :
    List.Pairwise (· < ·) (keysOf (mapInsert k v mp)) := by
  induction mp with
  | nil => simp [mapInsert, keysOf]
  | cons kv rest ih =>
    obtain ⟨k1, v1⟩ := kv
    rw [keysOf_cons] at h
    rw [List.pairwise_cons] at h
    obtain ⟨h1, h2⟩ := h
    simp only [mapInsert]
    split
    · rename_i hlt
      rw [keysOf_cons, keysOf_cons, List.pairwise_cons]
      refine ⟨?_, List.pairwise_cons.mpr ⟨h1, h2⟩⟩
      intro b hb
      rcases List.mem_cons.mp hb with h3 | h3
      · exact h3 ▸ hlt
      · exact lt_trans hlt (h1 b h3)
    · split
      · rename_i hnlt heq
        subst heq
        rw [keysOf_cons, List.pairwise_cons]
        exact ⟨h1, h2⟩
      · rename_i hnlt hne
        have hgt : k1 < k := by
          rcases lt_trichotomy k k1 with h3 | h3 | h3
          · exact absurd h3 hnlt
          · exact absurd h3 hne
          · exact h3
        rw [keysOf_cons, List.pairwise_cons]
        refine ⟨?_, ih h2⟩
        intro b hb
        rcases (mem_keysOf_mapInsert k v rest b).mp hb with h3 | h3
        · exact h3 ▸ hgt
        · exact h1 b h3

theorem values_mapInsert (P : List Int → Prop) (k : Int) (v : List Int)
    (mp : List (Int × List Int)) (hmp : ∀ kv ∈ mp, P kv.2) (hv : P v) :
    ∀ kv ∈ mapInsert k v mp, P kv.2 := by
  induction mp with
  | nil =>
    intro kv hkv
    simp only [mapInsert, List.mem_singleton] at hkv
    exact hkv ▸ hv
  | cons kv1 rest ih =>
    obtain ⟨k1, v1⟩ := kv1
    intro kv hkv
    have hrest : ∀ kv ∈ rest, P kv.2 :=
      fun kv h => hmp kv (List.mem_cons_of_mem _ h)
    have hhead : P (k1, v1).2 := hmp (k1, v1) (List.mem_cons_self _ _)
    simp only [mapInsert] at hkv
    split at hkv
    · rcases List.mem_cons.mp hkv with h | h
      · exact h ▸ hv
      · exact hmp kv h
    · split at hkv
      · rcases List.mem_cons.mp hkv with h | h
        · exact h ▸ hv
        · exact hrest kv h
      · rcases List.mem_cons.mp hkv with h | h
        · exact h ▸ hhead
        · exact ih hrest kv h

theorem readValuesFrom_ok_length (soln : List Int) (base : Nat) :
    ∀ (cs : List Nat) (vs : List Int),
      readValuesFrom soln base cs = Except.ok vs → vs.length = cs.length := by
  intro cs
  induction cs with
  | nil =>
    intro vs h
    simp only [readValuesFrom] at h
    injection h with h2
    rw [← h2]
    rfl
  | cons c cs ih =>
    intro vs h
    simp only [readValuesFrom] at h
    rcases hv : soln[base + c]? with _ | v
    · rw [hv] at h
      exact absurd h (by simp)
    · rw [hv] at h
      rcases hr : readValuesFrom soln base cs with e | vs0
      · rw [hr] at h
        exact absurd h (by simp)
      · rw [hr] at h
        injection h with h2
        rw [← h2]
        simp [ih vs0 hr]

theorem readValues_ok_length (soln : List Int) (gid nvars : Nat) (vs : List Int)
    (h : readValues soln gid nvars = Except.ok vs) : vs.length = nvars := by
  have h2 := readValuesFrom_ok_length soln (gid * nvars) (List.range nvars) vs h
  simpa using h2

theorem insertNodes_ok_pairwise (m : MeshBase) (soln : List Int) (nv : Nat) :
    ∀ (gids : List Nat) (mp mp' : List (Int × List Int)),
      insertNodes m soln nv mp gids = Except.ok mp' →
      List.Pairwise (· < ·) (keysOf mp) → List.Pairwise (· < ·) (keysOf mp') := by
  intro gids
  induction gids with
  | nil =>
    intro mp mp' h hp
    simp only [insertNodes] at h
    injection h with h2
    exact h2 ▸ hp
  | cons gid rest ih =>
    intro mp mp' h hp
    simp only [insertNodes] at h
    rcases hv : readValues soln gid nv with e | values
    · rw [hv] at h
      exact absurd h (by simp)
    · rw [hv] at h
      exact ih _ _ h (pairwise_keysOf_mapInsert _ _ _ hp)

theorem insertNodes_ok_values (m : MeshBase) (soln : List Int) (nv : Nat) :
    ∀ (gids : List Nat) (mp mp' : List (Int × List Int)),
      insertNodes m soln nv mp gids = Except.ok mp' →
      (∀ kv ∈ mp, kv.2.length = nv) → ∀ kv ∈ mp', kv.2.length = nv := by
  intro gids
  induction gids with
  | nil =>
    intro mp mp' h hp
    simp only [insertNodes] at h
    injection h with h2
    exact h2 ▸ hp
  | cons gid rest ih =>
    intro mp mp' h hp
    simp only [insertNodes] at h
    rcases hv : readValues soln gid nv with e | values
    · rw [hv] at h
      exact absurd h (by simp)
    · rw [hv] at h
      exact ih _ _ h
        (values_mapInsert (fun l => l.length = nv) _ _ _ hp
          (readValues_ok_length soln gid nv values hv))

theorem insertNodes_ok_mem (m : MeshBase) (soln : List Int) (nv : Nat) :
    ∀ (gids : List Nat) (mp mp' : List (Int × List Int)),
      insertNodes m soln nv mp gids = Except.ok mp' →
      ∀ x, x ∈ keysOf mp' ↔
        x ∈ keysOf mp ∨ x ∈ gids.map (fun g => m.point g) := by
  intro gids
  induction gids with
  | nil =>
    intro mp mp' h x
    simp only [insertNodes] at h
    injection h with h2
    subst h2
    simp
  | cons gid rest ih =>
    intro mp mp' h x
    simp only [insertNodes] at h
    rcases hv : readValues soln gid nv with e | values
    · rw [hv] at h
      exact absurd h (by simp)
    · rw [hv] at h
      rw [ih _ _ h x, mem_keysOf_mapInsert]
      simp only [List.map_cons, List.mem_cons]
      tauto

theorem nodeMapElems_ok_pairwise (m : MeshBase) (soln : List Int) (nv : Nat) :
    ∀ (els : List Elem) (mp mp' : List (Int × List Int)),
      nodeMapElems m soln nv mp els = Except.ok mp' →
      List.Pairwise (· < ·) (keysOf mp) → List.Pairwise (· < ·) (keysOf mp') := by
  intro els
  induction els with
  | nil =>
    intro mp mp' h hp
    simp only [nodeMapElems] at h
    injection h with h2
    exact h2 ▸ hp
  | cons el rest ih =>
    intro mp mp' h hp
    simp only [nodeMapElems] at h
    rcases he : insertNodes m soln nv mp el.nodes with e | mp2
    · rw [he] at h
      exact absurd h (by simp)
    · rw [he] at h
      exact ih _ _ h (insertNodes_ok_pairwise m soln nv _ _ _ he hp)

theorem nodeMapElems_ok_values (m : MeshBase) (soln : List Int) (nv : Nat) :
    ∀ (els : List Elem) (mp mp' : List (Int × List Int)),
      nodeMapElems m soln nv mp els = Except.ok mp' →
      (∀ kv ∈ mp, kv.2.length = nv) → ∀ kv ∈ mp', kv.2.length = nv := by
  intro els
  induction els with
  | nil =>
    intro mp mp' h hp
    simp only [nodeMapElems] at h
    injection h with h2
    exact h2 ▸ hp
  | cons el rest ih =>
    intro mp mp' h hp
    simp only [nodeMapElems] at h
    rcases he : insertNodes m soln nv mp el.nodes with e | mp2
    · rw [he] at h
      exact absurd h (by simp)
    · rw [he] at h
      exact ih _ _ h (insertNodes_ok_values m soln nv _ _ _ he hp)

theorem nodeMapElems_ok_mem (m : MeshBase) (soln : List Int) (nv : Nat) :
    ∀ (els : List Elem) (mp mp' : List (Int × List Int)),
      nodeMapElems m soln nv mp els = Except.ok mp' →
      ∀ x, x ∈ keysOf mp' ↔ x ∈ keysOf mp ∨
        x ∈ (els.map (fun el => el.nodes.map (fun g => m.point g))).flatten := by
  intro els
  induction els with
  | nil =>
    intro mp mp' h x
    simp only [nodeMapElems] at h
    injection h with h2
    subst h2
    simp
  | cons el rest ih =>
    intro mp mp' h x
    simp only [nodeMapElems] at h
    rcases he : insertNodes m soln nv mp el.nodes with e | mp2
    · rw [he] at h
      exact absurd h (by simp)
    · rw [he] at h
      rw [ih _ _ h x, insertNodes_ok_mem m soln nv _ _ _ he x]
      simp only [List.map_cons, List.flatten_cons, List.mem_append]
      tauto

theorem nodeMapOf_ok_pairwise (m : MeshBase) (soln : List Int) (nv : Nat)
    (nm : List (Int × List Int)) (h : nodeMapOf m soln nv = Except.ok nm) :
    List.Pairwise (· < ·) (keysOf nm) :=
  nodeMapElems_ok_pairwise m soln nv m.activeElems [] nm h (by simp [keysOf])

theorem nodeMapOf_ok_values (m : MeshBase) (soln : List Int) (nv : Nat)
    (nm : List (Int × List Int)) (h : nodeMapOf m soln nv = Except.ok nm) :
    ∀ kv ∈ nm, kv.2.length = nv :=
  nodeMapElems_ok_values m soln nv m.activeElems [] nm h (by simp)

theorem nodeMapOf_ok_mem (m : MeshBase) (soln : List Int) (nv : Nat)
    (nm : List (Int × List Int)) (h : nodeMapOf m soln nv = Except.ok nm) :
    ∀ x, x ∈ keysOf nm ↔ x ∈ activeCoords m := by
  intro x
  rw [nodeMapElems_ok_mem m soln nv m.activeElems [] nm h x]
  simp [keysOf, activeCoords]

theorem nodeMapOf_ok_length_dedup (m : MeshBase) (soln : List Int) (nv : Nat)
    (nm : List (Int × List Int)) (h : nodeMapOf m soln nv = Except.ok nm) :
    nm.length = (activeCoords m).dedup.length := by
  have hs := nodeMapOf_ok_pairwise m soln nv nm h
  have hmem := nodeMapOf_ok_mem m soln nv nm h
  have hnd : (keysOf nm).Nodup := hs.imp (fun hlt => ne_of_lt hlt)
  have hnd2 : ((activeCoords m).dedup).Nodup := List.nodup_dedup _
  have hperm : List.Perm (keysOf nm) ((activeCoords m).dedup) := by
    rw [List.perm_ext_iff_of_nodup hnd hnd2]
    intro a
    rw [hmem a, List.mem_dedup]
  have hlen := hperm.length_eq
  simpa [keysOf] using hlen


theorem digitChar_ne_tab_newline (d : Nat) :
    digitChar d ≠ '\t' ∧ digitChar d ≠ '\n' := by
  unfold digitChar
  repeat' split
  all_goals decide

theorem fmtNatCore_chars : ∀ (fuel n : Nat) (acc : List Char),
    ∀ c ∈ fmtNatCore fuel n acc, c ∈ acc ∨ ∃ d, c = digitChar d := by
  intro fuel
  induction fuel with
  | zero => intro n acc c hc; exact Or.inl hc
  | succ fuel ih =>
    intro n acc c hc
    simp only [fmtNatCore] at hc
    split at hc
    · rcases List.mem_cons.mp hc with h | h
      · exact Or.inr ⟨n % 10, h⟩
      · exact Or.inl h
    · rcases ih (n / 10) (digitChar (n % 10) :: acc) c hc with h | h
      · rcases List.mem_cons.mp h with h2 | h2
        · exact Or.inr ⟨n % 10, h2⟩
        · exact Or.inl h2
      · exact Or.inr h

theorem fmtNatCore_ne_nil : ∀ (fuel n : Nat) (acc : List Char),
    acc ≠ [] → fmtNatCore fuel n acc ≠ [] := by
  intro fuel
  induction fuel with
  | zero => intro n acc h; exact h
  | succ fuel ih =>
    intro n acc h
    simp only [fmtNatCore]
    split
    · exact List.cons_ne_nil _ _
    · exact ih (n / 10) _ (List.cons_ne_nil _ _)

theorem fmtNat_data_ne_nil (n : Nat) : (fmtNat n).data ≠ [] := by
  show fmtNatCore (n+1) n [] ≠ []
  simp only [fmtNatCore]
  split
  · exact List.cons_ne_nil _ _
  · exact fmtNatCore_ne_nil n (n / 10) _ (List.cons_ne_nil _ _)

theorem fmtNat_data_chars (n : Nat) :
    ∀ c ∈ (fmtNat n).data, c ≠ '\t' ∧ c ≠ '\n' := by
  intro c hc
  rcases fmtNatCore_chars (n+1) n [] c hc with h | ⟨d, hd⟩
  · exact absurd h (List.not_mem_nil c)
  · exact hd ▸ digitChar_ne_tab_newline d

theorem fmtInt_data_ne_nil (x : Int) : (fmtInt x).data ≠ [] := by
  cases x with
  | ofNat m => exact fmtNat_data_ne_nil m
  | negSucc m =>
    show ("-" ++ fmtNat (m+1)).data ≠ []
    rw [String.data_append]
    simp

theorem fmtInt_data_chars (x : Int) :
    ∀ c ∈ (fmtInt x).data, c ≠ '\t' ∧ c ≠ '\n' := by
  cases x with
  | ofNat m => exact fmtNat_data_chars m
  | negSucc m =>
    intro c hc
    rw [show fmtInt (Int.negSucc m) = "-" ++ fmtNat (m+1) from rfl,
      String.data_append] at hc
    rcases List.mem_append.mp hc with h | h
    · have h2 : c = '-' := by simpa using h
      subst h2
      exact ⟨by decide, by decide⟩
    · exact fmtNat_data_chars (m+1) c h

theorem foldl_append_data (l : List String) :
    ∀ acc : String,
      (l.foldl (fun r s => r ++ s) acc).data
        = acc.data ++ (l.map String.data).flatten := by
  induction l with
  | nil => intro acc; simp
  | cons s rest ih =>
    intro acc
    simp only [List.foldl_cons, List.map_cons, List.flatten_cons]
    rw [ih (acc ++ s), String.data_append, List.append_assoc]

theorem string_join_data (l : List String) :
    (String.join l).data = (l.map String.data).flatten := by
  show (l.foldl (fun r s => r ++ s) "").data = _
  rw [foldl_append_data]
  rfl

theorem splitOnChar_field (sep : Char) : ∀ (f rest : List Char),
    (∀ c ∈ f, c ≠ sep) →
    splitOnChar sep (f ++ sep :: rest) = f :: splitOnChar sep rest := by
  intro f
  induction f with
  | nil =>
    intro rest hf
    simp [splitOnChar]
  | cons c f ih =>
    intro rest hf
    have hc : c ≠ sep := hf c (List.mem_cons_self c f)
    simp only [List.cons_append, splitOnChar, if_neg hc, List.append_eq]
    rw [ih rest (fun d hd => hf d (List.mem_cons_of_mem c hd))]

theorem splitOnChar_terminated (sep : Char) :
    ∀ (fs : List (List Char)), (∀ f ∈ fs, ∀ c ∈ f, c ≠ sep) →
      splitOnChar sep ((fs.map (fun f => f ++ [sep])).flatten) = fs ++ [[]] := by
  intro fs
  induction fs with
  | nil => intro h; rfl
  | cons f fs ih =>
    intro h
    simp only [List.map_cons, List.flatten_cons]
    rw [List.append_assoc, List.singleton_append,
      splitOnChar_field sep f _ (fun c hc => h f (List.mem_cons_self f fs) c hc),
      ih (fun g hg c hc => h g (List.mem_cons_of_mem f hg) c hc)]
    rfl

theorem filter_nonempty_append_nil (fs : List (List Char))
    (h : ∀ f ∈ fs, f ≠ []) :
    (fs ++ [([] : List Char)]).filter (fun f => f ≠ []) = fs := by
  induction fs with
  | nil => rfl
  | cons f fs ih =>
    have hf : f ≠ [] := h f (List.mem_cons_self f fs)
    simp only [List.cons_append, List.filter_cons]
    rw [if_pos (by simpa using hf), ih (fun g hg => h g (List.mem_cons_of_mem f hg))]


theorem tab_data : ("\t" : String).data = ['\t'] := rfl

theorem newline_data : ("\n" : String).data = ['\n'] := rfl

theorem mk_data (s : String) : String.mk s.data = s := rfl

theorem rowBody_data (k : Int) (vs : List Int) :
    (rowBody (k, vs)).data
      = (fmtInt k).data
        ++ '\t' :: ((vs.map (fun v => (fmtInt v).data)).map
            (fun f => f ++ ['\t'])).flatten := by
  simp only [rowBody, String.data_append, string_join_data, List.map_map,
    Function.comp_def, tab_data, List.append_assoc, List.singleton_append]

theorem rowBody_data_no_newline (kv : Int × List Int) :
    ∀ c ∈ (rowBody kv).data, c ≠ '\n' := by
  obtain ⟨k, vs⟩ := kv
  intro c hc
  rw [rowBody_data] at hc
  rcases List.mem_append.mp hc with h | h
  · exact (fmtInt_data_chars k c h).2
  · rcases List.mem_cons.mp h with h2 | h2
    · subst h2; decide
    · rcases List.mem_flatten.mp h2 with ⟨l, hl, hcl⟩
      rcases List.mem_map.mp hl with ⟨f, hf, rfl⟩
      rcases List.mem_map.mp hf with ⟨v, hv, rfl⟩
      rcases List.mem_append.mp hcl with h3 | h3
      · exact (fmtInt_data_chars v c h3).2
      · have h4 : c = '\t' := by simpa using h3
        subst h4; decide

theorem tabFields_rowBody (k : Int) (vs : List Int) :
    tabFields (rowBody (k, vs)) = fmtInt k :: vs.map fmtInt := by
  have hfs : ∀ f ∈ vs.map (fun v => (fmtInt v).data), ∀ c ∈ f, c ≠ '\t' := by
    intro f hf c hc
    rcases List.mem_map.mp hf with ⟨v, hv, rfl⟩
    exact (fmtInt_data_chars v c hc).1
  have hne : ∀ f ∈ vs.map (fun v => (fmtInt v).data), f ≠ [] := by
    intro f hf
    rcases List.mem_map.mp hf with ⟨v, hv, rfl⟩
    exact fmtInt_data_ne_nil v
  unfold tabFields
  rw [rowBody_data,
    splitOnChar_field '\t' _ _ (fun c hc => (fmtInt_data_chars k c hc).1),
    splitOnChar_terminated '\t' _ hfs,
    List.filter_cons, if_pos (by simpa using fmtInt_data_ne_nil k),
    filter_nonempty_append_nil _ hne]
  simp [mk_data, List.map_map, Function.comp_def]

theorem dataFileOf_data (nm : List (Int × List Int)) :
    (dataFileOf nm).data
      = ((nm.map (fun kv => (rowBody kv).data)).map (fun f => f ++ ['\n'])).flatten := by
  simp only [dataFileOf, string_join_data, List.map_map, Function.comp_def,
    String.data_append, newline_data]

theorem dataRows_of_dataFileOf (out : GOut) (nm : List (Int × List Int))
    (h : out.dataFile = dataFileOf nm) :
    dataRows out = nm.map (fun kv => rowBody kv) := by
  have hnl : ∀ f ∈ nm.map (fun kv => (rowBody kv).data), ∀ c ∈ f, c ≠ '\n' := by
    intro f hf c hc
    rcases List.mem_map.mp hf with ⟨kv, hkv, rfl⟩
    exact rowBody_data_no_newline kv c hc
  unfold dataRows
  rw [h, dataFileOf_data, splitOnChar_terminated '\n' _ hnl, List.dropLast_concat]
  simp [mk_data, List.map_map, Function.comp_def]

/-- C4: every data-file line of a successful export is the coordinate
followed by each variable's value in caller-supplied order, each field
followed by a tab, with a trailing newline and no header row; splitting a
row at tabs yields exactly `names.length + 1` non-empty columns. -/
theorem c4_row_columns (st : GnuPlotState) (fname : String) (s : List Int)
    (ns : List String) (out : GOut)
    (h : write_nodal_data st fname s ns = Except.ok (some out)) :
    ∃ nm, nodeMapOf st.mesh s ns.length = Except.ok nm ∧
      out.dataFile = dataFileOf nm ∧
      dataRows out = nm.map (fun kv => rowBody kv) ∧
      ∀ kv ∈ nm,
        rowBody kv
          = fmtInt kv.1 ++ "\t" ++ String.join (kv.2.map (fun v => fmtInt v ++ "\t")) ∧
        tabFields (rowBody kv) = fmtInt kv.1 :: kv.2.map fmtInt ∧
        (tabFields (rowBody kv)).length = ns.length + 1 := by
  obtain ⟨n0, rest, nm, hns, hnm, hout⟩ := write_solution_ok_inv st fname s ns out h
  subst hns
  subst hout
  refine ⟨nm, hnm, rfl, dataRows_of_dataFileOf _ nm rfl, ?_⟩
  intro kv hkv
  obtain ⟨k, vs⟩ := kv
  have hlen : vs.length = (n0 :: rest).length :=
    nodeMapOf_ok_values st.mesh s _ nm hnm (k, vs) hkv
  refine ⟨rfl, tabFields_rowBody k vs, ?_⟩
  rw [tabFields_rowBody k vs]
  simp [hlen]

/-- C4 witness at the worked example. -/
theorem c4_row_columns_witness :
    ∃ nm, nodeMapOf exSt.mesh exSoln (["u"] : List String).length = Except.ok nm ∧
      exOut.dataFile = dataFileOf nm ∧
      dataRows exOut = nm.map (fun kv => rowBody kv) ∧
      ∀ kv ∈ nm,
        rowBody kv
          = fmtInt kv.1 ++ "\t" ++ String.join (kv.2.map (fun v => fmtInt v ++ "\t")) ∧
        tabFields (rowBody kv) = fmtInt kv.1 :: kv.2.map fmtInt ∧
        (tabFields (rowBody kv)).length = (["u"] : List String).length + 1 :=
  c4_row_columns exSt "ex" exSoln ["u"] exOut rfl

/-- C5: a successful export writes exactly one data row per distinct node
coordinate of the active elements (shared nodes are deduplicated by the
coordinate-keyed map), and the rows appear in strictly ascending
coordinate order. -/
theorem c5_rows_distinct_ascending (st : GnuPlotState) (fname : String)
    (s : List Int) (ns : List String) (out : GOut)
    (h : write_nodal_data st fname s ns = Except.ok (some out)) :
    ∃ nm, nodeMapOf st.mesh s ns.length = Except.ok nm ∧
      out.dataFile = dataFileOf nm ∧
      dataRows out = nm.map (fun kv => rowBody kv) ∧
      List.Pairwise (· < ·) (keysOf nm) ∧
      (∀ x, x ∈ keysOf nm ↔ x ∈ activeCoords st.mesh) ∧
      (dataRows out).length = (activeCoords st.mesh).dedup.length := by
  obtain ⟨n0, rest, nm, hns, hnm, hout⟩ := write_solution_ok_inv st fname s ns out h
  subst hns
  subst hout
  have hrows := dataRows_of_dataFileOf
    { script := scriptOf st fname n0 rest, dataFile := dataFileOf nm } nm rfl
  refine ⟨nm, hnm, rfl, hrows, nodeMapOf_ok_pairwise _ _ _ _ hnm,
    nodeMapOf_ok_mem _ _ _ _ hnm, ?_⟩
  rw [hrows]
  simp [nodeMapOf_ok_length_dedup _ _ _ _ hnm]

/-- C5 witness at the worked example. -/
theorem c5_rows_distinct_ascending_witness :
    ∃ nm, nodeMapOf exSt.mesh exSoln (["u"] : List String).length = Except.ok nm ∧
      exOut.dataFile = dataFileOf nm ∧
      dataRows exOut = nm.map (fun kv => rowBody kv) ∧
      List.Pairwise (· < ·) (keysOf nm) ∧
      (∀ x, x ∈ keysOf nm ↔ x ∈ activeCoords exSt.mesh) ∧
      (dataRows exOut).length = (activeCoords exSt.mesh).dedup.length :=
  c5_rows_distinct_ascending exSt "ex" exSoln ["u"] exOut rfl


/-- C4, strict-separator reading refuted: the data file is not the strictly
tab-separated rendering (one tab strictly between fields); every field,
including the last value of a row, is followed by a tab. -/
theorem c4_strict_tsv_counterexample :
    write_nodal_data exSt "ex" exSoln ["u"] = Except.ok (some exOut) ∧
    exOut.dataFile ≠ "0\t0\n1\t1\n2\t4\n3\t9\n" ∧
    exOut.dataFile = "0\t0\t\n1\t1\t\n2\t4\t\n3\t9\t\n" :=
  ⟨rfl, by decide, rfl⟩

end GnuplotIOModel
